import Mathlib

/-!
# Verification of the hat-chatter Chatter protocol core

The repository's Python sources under test are `hat.chatter` (connection
state machine, framing, conversations, ping/pong) together with its SBS
schema repository.  The implementation module itself is not present in
the source tree (only its pytest suite and build scripts are), so the
definitions below are modelled from the specification document
(`spec.md`): the data model of §3, the address parser of §4.1, the frame
codec of §4.2, the conversation registry of §4.3 and the connection
state machine of §4.4.  Bytes are modelled as natural numbers and byte
streams as lists of naturals.
-/

/-- A byte stream: each element conceptually a byte (`< 256`). -/
abbrev Bytes := List Nat

/-- ASCII bytes of a string literal, used for schema module/type names. -/
def strBytes (s : String) : Bytes :=
  s.toList.map Char.toNat

/-! ## SBS codec, modelled

Modelled from the spec: the SBS encoder/decoder (`SchemaRepo.encode` /
`SchemaRepo.decode`, spec §6 and glossary) lives in the external
`hat-sbs` library and is absent from the source tree.  It is modelled
here as a schema-directed binary codec over the primitive kinds the
repository's schemas and tests exercise (integer, boolean, string,
bytes, optional), with variable-length unsigned integers as the spec's
framing section (§4.2) requires.
-/

/-- Variable-length unsigned integer encoding: little-endian base-128
digits, continuation bit set on every byte except the final one. -/
def encNat (n : Nat) : Bytes :=
  if h : n < 128 then [n]
  else (n % 128 + 128) :: encNat (n / 128)
decreasing_by exact Nat.div_lt_self (by omega) (by omega)

/-- Decode a variable-length unsigned integer, returning the value and
the remaining bytes; `none` on truncated input. -/
def decNat : Bytes → Option (Nat × Bytes)
  | [] => none
  | b :: rest =>
    if b < 128 then some (b, rest)
    else match decNat rest with
      | some (m, r) => some ((b - 128) + 128 * m, r)
      | none => none

/-- Signed integers: a sign byte (0 = nonnegative, 1 = negative) followed
by the magnitude (`-n-1` stored as `n` for negatives). -/
def encInt : Int → Bytes
  | Int.ofNat n => 0 :: encNat n
  | Int.negSucc n => 1 :: encNat n

def decInt : Bytes → Option (Int × Bytes)
  | 0 :: rest =>
    match decNat rest with
    | some (n, r) => some (Int.ofNat n, r)
    | none => none
  | 1 :: rest =>
    match decNat rest with
    | some (n, r) => some (Int.negSucc n, r)
    | none => none
  | _ => none

def encBool (b : Bool) : Bytes := [if b then 1 else 0]

def decBool : Bytes → Option (Bool × Bytes)
  | 0 :: rest => some (false, rest)
  | 1 :: rest => some (true, rest)
  | _ => none

/-- Length-prefixed byte string (used for SBS `String` and `Bytes`). -/
def encBytes (s : Bytes) : Bytes := encNat s.length ++ s

def decBytes (bs : Bytes) : Option (Bytes × Bytes) :=
  match decNat bs with
  | some (n, r) => if n ≤ r.length then some (r.take n, r.drop n) else none
  | none => none

/-- Optional byte string: tag byte 0 = absent, 1 = present. -/
def encOptBytes : Option Bytes → Bytes
  | none => [0]
  | some s => 1 :: encBytes s

def decOptBytes : Bytes → Option (Option Bytes × Bytes)
  | 0 :: rest => some (none, rest)
  | 1 :: rest =>
    match decBytes rest with
    | some (s, r) => some (some s, r)
    | none => none
  | _ => none

/-! ### Codec roundtrip lemmas -/

theorem decNat_encNat (n : Nat) : ∀ r : Bytes, decNat (encNat n ++ r) = some (n, r) := by
  induction n using Nat.strong_induction_on with
  | _ n ih =>
    intro r
    by_cases h : n < 128
    · rw [encNat]
      simp [h, decNat]
    · rw [encNat]
      simp only [h, dite_false, List.cons_append]
      have hd : ¬ (n % 128 + 128 < 128) := by omega
      have hlt : n / 128 < n := Nat.div_lt_self (by omega) (by omega)
      rw [decNat]
      simp only [hd, if_false, ih (n / 128) hlt r]
      have : n % 128 + 128 - 128 + 128 * (n / 128) = n := by
        have := Nat.mod_add_div n 128
        omega
      rw [this]

theorem decInt_encInt (i : Int) (r : Bytes) : decInt (encInt i ++ r) = some (i, r) := by
  cases i with
  | ofNat n => simp [encInt, decInt, decNat_encNat]
  | negSucc n => simp [encInt, decInt, decNat_encNat]

theorem decBool_encBool (b : Bool) (r : Bytes) : decBool (encBool b ++ r) = some (b, r) := by
  cases b <;> simp [encBool, decBool]

theorem decBytes_encBytes (s : Bytes) (r : Bytes) :
    decBytes (encBytes s ++ r) = some (s, r) := by
  simp only [encBytes, decBytes, List.append_assoc, decNat_encNat]
  simp [List.take_left, List.drop_left]

theorem decOptBytes_encOptBytes (o : Option Bytes) (r : Bytes) :
    decOptBytes (encOptBytes o ++ r) = some (o, r) := by
  cases o with
  | none => simp [encOptBytes, decOptBytes]
  | some s => simp [encOptBytes, decOptBytes, decBytes_encBytes]

/-! ## Schema-directed values

Modelled from the spec: `Data.data` is "a language-neutral value
conformant to `module.type` under the `SchemaRepo`" (§3); decoding is
schema-driven against named `(module, type)` pairs (glossary).  The
value kinds are those of the design note §9 that the repository's
schemas use.
-/

/-- The SBS type expressions a schema repository may register. -/
inductive SbsType where
  | boolean : SbsType
  | integer : SbsType
  | string : SbsType
  | bytes : SbsType
  | option : SbsType → SbsType
deriving DecidableEq

/-- A language-neutral SBS value.  An optional value is either absent
(`optionNone`) or present with its payload (`optionSome`). -/
inductive SbsValue where
  | boolean : Bool → SbsValue
  | integer : Int → SbsValue
  | string : Bytes → SbsValue
  | bytes : Bytes → SbsValue
  | optionNone : SbsValue
  | optionSome : SbsValue → SbsValue
deriving DecidableEq

/-- Value `v` conforms to type `t` (string/bytes contents are genuine
bytes). -/
def conforms : SbsType → SbsValue → Bool
  | .boolean, .boolean _ => true
  | .integer, .integer _ => true
  | .string, .string s => s.all (· < 256)
  | .bytes, .bytes s => s.all (· < 256)
  | .option _, .optionNone => true
  | .option t, .optionSome v => conforms t v
  | _, _ => false

/-- Encode an SBS value (value-directed; the schema fixes which shapes
may occur). -/
def encodeVal : SbsValue → Bytes
  | .boolean b => encBool b
  | .integer i => encInt i
  | .string s => encBytes s
  | .bytes s => encBytes s
  | .optionNone => [0]
  | .optionSome v => 1 :: encodeVal v

/-- Decode an SBS value, directed by the expected schema type. -/
def decodeVal : SbsType → Bytes → Option (SbsValue × Bytes)
  | .boolean, bs =>
    match decBool bs with
    | some (b, r) => some (.boolean b, r)
    | none => none
  | .integer, bs =>
    match decInt bs with
    | some (i, r) => some (.integer i, r)
    | none => none
  | .string, bs =>
    match decBytes bs with
    | some (s, r) => some (.string s, r)
    | none => none
  | .bytes, bs =>
    match decBytes bs with
    | some (s, r) => some (.bytes s, r)
    | none => none
  | .option t, bs =>
    match bs with
    | 0 :: rest => some (.optionNone, rest)
    | 1 :: rest =>
      match decodeVal t rest with
      | some (v, r) => some (.optionSome v, r)
      | none => none
    | _ => none

theorem decodeVal_encodeVal (t : SbsType) (v : SbsValue) (h : conforms t v = true) :
    ∀ r : Bytes, decodeVal t (encodeVal v ++ r) = some (v, r) := by
  induction t generalizing v with
  | boolean =>
    cases v <;> simp [conforms] at h
    intro r
    simp [encodeVal, decodeVal, decBool_encBool]
  | integer =>
    cases v <;> simp [conforms] at h
    intro r
    simp [encodeVal, decodeVal, decInt_encInt]
  | string =>
    cases v <;> simp [conforms] at h
    intro r
    simp [encodeVal, decodeVal, decBytes_encBytes]
  | bytes =>
    cases v <;> simp [conforms] at h
    intro r
    simp [encodeVal, decodeVal, decBytes_encBytes]
  | option t ih =>
    cases v with
    | optionNone => intro r; simp [encodeVal, decodeVal]
    | optionSome w =>
      intro r
      have hw : conforms t w = true := by simpa [conforms] using h
      simp [encodeVal, decodeVal, ih w hw r]
    | boolean b => simp [conforms] at h
    | integer i => simp [conforms] at h
    | string s => simp [conforms] at h
    | bytes s => simp [conforms] at h

/-! ## Wire envelope `Msg` and framing

Modelled from the spec: the wire schema of §6 (module `Hat`):
`Msg = { id, first, owner, token, last, data }` with
`Data = { module: Maybe<String>, type: String, data: Bytes }`, and the
frame codec of §4.2 (each `Msg` prefixed by its SBS-encoded length).
-/

/-- The inner payload record of the wire envelope: schema module name
(absent for built-in SBS types), type name, and the SBS-encoded user
value. -/
structure MsgData where
  module : Option Bytes
  type : Bytes
  data : Bytes
deriving DecidableEq

/-- The wire envelope (spec §3 "Msg"). -/
structure Msg where
  id : Nat
  first : Nat
  owner : Bool
  token : Bool
  last : Bool
  data : MsgData
deriving DecidableEq

/-- SBS encoding of a `Msg` under the `Hat`/`Msg` schema: the record
fields in order. -/
def encodeMsg (m : Msg) : Bytes :=
  encNat m.id ++ encNat m.first ++ encBool m.owner ++ encBool m.token ++
    encBool m.last ++ encOptBytes m.data.module ++ encBytes m.data.type ++
    encBytes m.data.data

/-- SBS decoding of a `Msg` under the `Hat`/`Msg` schema. -/
def decodeMsg (bs : Bytes) : Option (Msg × Bytes) :=
  match decNat bs with
  | none => none
  | some (i, bs) =>
    match decNat bs with
    | none => none
    | some (f, bs) =>
      match decBool bs with
      | none => none
      | some (ow, bs) =>
        match decBool bs with
        | none => none
        | some (tk, bs) =>
          match decBool bs with
          | none => none
          | some (la, bs) =>
            match decOptBytes bs with
            | none => none
            | some (mo, bs) =>
              match decBytes bs with
              | none => none
              | some (ty, bs) =>
                match decBytes bs with
                | none => none
                | some (da, bs) =>
                  some (⟨i, f, ow, tk, la, ⟨mo, ty, da⟩⟩, bs)

theorem decodeMsg_encodeMsg (m : Msg) (r : Bytes) :
    decodeMsg (encodeMsg m ++ r) = some (m, r) := by
  obtain ⟨i, f, ow, tk, la, mo, ty, da⟩ := m
  simp [encodeMsg, decodeMsg, decNat_encNat, decBool_encBool, decOptBytes_encOptBytes,
    decBytes_encBytes]

/-- Write path of the frame codec (§4.2): the SBS-encoded length of the
payload immediately followed by the payload. -/
def encodeFrame (m : Msg) : Bytes :=
  encNat (encodeMsg m).length ++ encodeMsg m

/-- Read path of the frame codec (§4.2): decode one SBS integer (length
`n`), read exactly `n` bytes, decode them as a `Msg` consuming all of
them.  `none` is a fatal protocol error (decode failure, EOF mid-frame,
or unsatisfiable length). -/
def readFrame (bs : Bytes) : Option (Msg × Bytes) :=
  match decNat bs with
  | none => none
  | some (n, rest) =>
    if n ≤ rest.length then
      match decodeMsg (rest.take n) with
      | some (m, []) => some (m, rest.drop n)
      | _ => none
    else none

theorem readFrame_encodeFrame (m : Msg) (r : Bytes) :
    readFrame (encodeFrame m ++ r) = some (m, r) := by
  simp only [encodeFrame, readFrame, List.append_assoc, decNat_encNat]
  have h1 : (encodeMsg m).length ≤ (encodeMsg m ++ r).length := by
    simp [List.length_append]
  simp only [h1, if_true, List.take_left, List.drop_left]
  have h2 : decodeMsg (encodeMsg m) = some (m, []) := by
    simpa using decodeMsg_encodeMsg m []
  simp [h2]

/-! ## Address parser

Modelled from the spec: §4.1 — `parse(addr)` accepts exactly the two
schemes `tcp+sbs` and `ssl+sbs`, rejects a missing port; §6 gives the
grammar `^(tcp|ssl)\+sbs://<host>:<port>$`, any other form rejected by
both `connect` and `listen` with `AddressInvalid` (§7).
-/

inductive Transport where
  | tcp : Transport
  | ssl : Transport
deriving DecidableEq

structure Address where
  transport : Transport
  host : List Char
  port : Nat
deriving DecidableEq

/-- Expect `"//"` and return what follows it. -/
def cssTail : List Char → Option (List Char)
  | [] => none
  | [_] => none
  | d :: e :: b =>
    if d = '/' then if e = '/' then some b else none else none

/-- Split a character list at the first `"://"` (whose `':'` is the
first colon of the list). -/
def splitCSS : List Char → Option (List Char × List Char)
  | [] => none
  | c :: rest =>
    if c = ':' then (cssTail rest).map (fun b => ([], b))
    else (splitCSS rest).map (fun p => (c :: p.1, p.2))

/-- Split a character list at its first `':'`. -/
def splitFirstColon : List Char → Option (List Char × List Char)
  | [] => none
  | c :: rest =>
    if c = ':' then some ([], rest)
    else (splitFirstColon rest).map (fun p => (c :: p.1, p.2))

/-- Decimal value of a digit string. -/
def portVal (p : List Char) : Nat :=
  p.foldl (fun acc c => acc * 10 + (c.toNat - 48)) 0

/-- `parse(addr)` of spec §4.1: scheme before `"://"`, host before the
next `':'`, decimal port after it. -/
def parseAddress (s : String) : Option Address :=
  match splitCSS s.toList with
  | none => none
  | some (scheme, rest) =>
    match splitFirstColon rest with
    | none => none
    | some (host, port) =>
      if scheme = "tcp+sbs".toList ∨ scheme = "ssl+sbs".toList then
        if host ≠ [] ∧ '/' ∉ host ∧ port ≠ [] ∧ port.all Char.isDigit ∧
            portVal port < 65536
        then some ⟨if scheme = "tcp+sbs".toList then .tcp else .ssl,
                   host, portVal port⟩
        else none
      else none

/-- The address grammar of spec §6, stated as the regular expression
`^(tcp|ssl)\+sbs://<host>:<port>$` reads: a scheme `tcp+sbs` or
`ssl+sbs`, then `"://"`, then a nonempty host containing no `':'` or
`'/'`, then `':'`, then a nonempty decimal port below 65536. -/
def AddressGrammar (s : String) : Prop :=
  ∃ scheme host port : List Char,
    s.toList = scheme ++ ':' :: '/' :: '/' :: (host ++ ':' :: port) ∧
    (scheme = "tcp+sbs".toList ∨ scheme = "ssl+sbs".toList) ∧
    host ≠ [] ∧ ':' ∉ host ∧ '/' ∉ host ∧
    port ≠ [] ∧ port.all Char.isDigit ∧ portVal port < 65536

theorem cssTail_sound : ∀ l b, cssTail l = some b → l = '/' :: '/' :: b := by
  intro l b h
  rcases l with _ | ⟨d, _ | ⟨e, t⟩⟩
  · simp [cssTail] at h
  · simp [cssTail] at h
  · by_cases hd : d = '/'
    · by_cases he : e = '/'
      · subst hd he
        simp [cssTail] at h
        rw [h]
      · simp [cssTail, hd, he] at h
    · simp [cssTail, hd] at h

theorem splitCSS_complete (a b : List Char) (h : ':' ∉ a) :
    splitCSS (a ++ ':' :: '/' :: '/' :: b) = some (a, b) := by
  induction a with
  | nil => simp [splitCSS, cssTail]
  | cons c a ih =>
    have hc : c ≠ ':' := by
      intro e
      exact h (by simp [e])
    have h' : ':' ∉ a := fun m => h (List.mem_cons_of_mem _ m)
    simp [splitCSS, hc, ih h']

theorem splitCSS_sound :
    ∀ l a b, splitCSS l = some (a, b) →
      l = a ++ ':' :: '/' :: '/' :: b ∧ ':' ∉ a := by
  intro l
  induction l with
  | nil => intro a b h; simp [splitCSS] at h
  | cons c rest ih =>
    intro a b h
    by_cases hc : c = ':'
    · subst hc
      simp only [splitCSS, if_true] at h
      match hct : cssTail rest with
      | some b' =>
        rw [hct] at h
        simp only [Option.map_some', Option.some.injEq, Prod.mk.injEq] at h
        obtain ⟨ha, hb⟩ := h
        subst hb
        rw [cssTail_sound _ _ hct, ← ha]
        exact ⟨rfl, by simp⟩
      | none => rw [hct] at h; simp at h
    · simp only [splitCSS, hc, if_false] at h
      match hrec : splitCSS rest with
      | some (a', b') =>
        rw [hrec] at h
        simp only [Option.map_some', Option.some.injEq, Prod.mk.injEq] at h
        obtain ⟨ha, hb⟩ := h
        subst hb
        obtain ⟨hl, hm⟩ := ih a' b' hrec
        subst hl
        constructor
        · rw [← ha]; simp
        · rw [← ha]
          intro hmem
          rcases List.mem_cons.mp hmem with h1 | h1
          · exact hc h1.symm
          · exact hm h1
      | none => rw [hrec] at h; simp at h

theorem splitFirstColon_complete (a b : List Char) (h : ':' ∉ a) :
    splitFirstColon (a ++ ':' :: b) = some (a, b) := by
  induction a with
  | nil => simp [splitFirstColon]
  | cons c a ih =>
    have hc : c ≠ ':' := by
      intro e
      exact h (by simp [e])
    have h' : ':' ∉ a := fun m => h (List.mem_cons_of_mem _ m)
    simp [splitFirstColon, hc, ih h']

theorem splitFirstColon_sound :
    ∀ l a b, splitFirstColon l = some (a, b) →
      l = a ++ ':' :: b ∧ ':' ∉ a := by
  intro l
  induction l with
  | nil => intro a b h; simp [splitFirstColon] at h
  | cons c rest ih =>
    intro a b h
    by_cases hc : c = ':'
    · subst hc
      simp only [splitFirstColon, if_true, Option.some.injEq, Prod.mk.injEq] at h
      obtain ⟨ha, hb⟩ := h
      subst hb
      rw [← ha]
      exact ⟨rfl, by simp⟩
    · simp only [splitFirstColon, hc, if_false] at h
      match hrec : splitFirstColon rest with
      | some (a', b') =>
        rw [hrec] at h
        simp only [Option.map_some', Option.some.injEq, Prod.mk.injEq] at h
        obtain ⟨ha, hb⟩ := h
        subst hb
        obtain ⟨hl, hm⟩ := ih a' b' hrec
        subst hl
        constructor
        · rw [← ha]; simp
        · rw [← ha]
          intro hmem
          rcases List.mem_cons.mp hmem with h1 | h1
          · exact hc h1.symm
          · exact hm h1
      | none => rw [hrec] at h; simp at h

theorem parseAddress_isSome_iff (s : String) :
    (parseAddress s).isSome ↔ AddressGrammar s := by
  constructor
  · intro h
    rw [parseAddress] at h
    split at h
    · simp at h
    · rename_i scheme rest h1
      split at h
      · simp at h
      · rename_i host port h2
        split at h
        · rename_i hsch
          split at h
          · rename_i hcond
            obtain ⟨hl1, _⟩ := splitCSS_sound _ _ _ h1
            obtain ⟨hl2, hc2⟩ := splitFirstColon_sound _ _ _ h2
            refine ⟨scheme, host, port, ?_, hsch, hcond.1, hc2, hcond.2.1,
              hcond.2.2.1, hcond.2.2.2.1, hcond.2.2.2.2⟩
            rw [hl1, hl2]
          · simp at h
        · simp at h
  · rintro ⟨scheme, host, port, heq, hsch, hh, hhc, hhs, hp, hpd, hpv⟩
    have hschc : ':' ∉ scheme := by
      rcases hsch with he | he <;> subst he <;> decide
    have h1 : splitCSS s.toList = some (scheme, host ++ ':' :: port) := by
      rw [heq]
      exact splitCSS_complete _ _ hschc
    have h2 : splitFirstColon (host ++ ':' :: port) = some (host, port) :=
      splitFirstColon_complete _ _ hhc
    rw [parseAddress, h1]
    simp only [h2, hsch, if_true]
    simp [hh, hhs, hp, hpd, hpv]

/-! ## Errors and public address checks

Modelled from the spec: §7 — `AddressInvalid` is raised synchronously
from `connect`/`listen` when the scheme or port is malformed;
`ConnectionClosed` is raised by `send`/`receive` after `Closing` begins.
-/

inductive ChatterError where
  | addressInvalid : ChatterError
  | connectionClosed : ChatterError
deriving DecidableEq

/-- The synchronous address validation `connect` performs before any
network I/O (spec §4.1, §7). -/
def connectAddressCheck (s : String) : Except ChatterError Address :=
  match parseAddress s with
  | some a => .ok a
  | none => .error .addressInvalid

/-- The synchronous address validation `listen` performs before binding
(spec §4.1, §7). -/
def listenAddressCheck (s : String) : Except ChatterError Address :=
  match parseAddress s with
  | some a => .ok a
  | none => .error .addressInvalid

/-! ## Conversations, registry, connection state

Modelled from the spec: §3 (Conversation, Received message), §4.3
(conversation registry) and §4.4 (connection tasks, public contract,
shutdown state machine).  Callbacks are identified by opaque numeric
ids; deadlines are naturals on a discrete clock.
-/

/-- A conversation as one peer views it (§3): the id of its opening
message and whether this peer created it.  Per §3, comparison uses
`first_id` and the `owner` flag from the comparing peer's viewpoint, so
equality is structural on these two fields; the timeout callback lives
in the registry (§4.3). -/
structure Conversation where
  firstId : Nat
  owner : Bool
deriving DecidableEq

/-- The user payload envelope (`Data`, §3): optional schema module name
(absent ⇒ built-in SBS type), type name, and the value itself. -/
structure DataRec where
  module : Option Bytes
  type : Bytes
  data : SbsValue
deriving DecidableEq

/-- The message delivered to the user (§3), with
`first = (msg.id == msg.first)`. -/
structure ReceivedMessage where
  conv : Conversation
  first : Bool
  last : Bool
  token : Bool
  data : DataRec
deriving DecidableEq

/-- Shutdown state machine states (§4.4): `Open → Closing → Closed`. -/
inductive Phase where
  | opened : Phase
  | closing : Phase
  | closed : Phase
deriving DecidableEq

/-- Ping task state (§4.4 task 3): between pings, or awaiting a pong. -/
inductive PingState where
  | idle : PingState
  | waitingPong : PingState
deriving DecidableEq

/-- Conversation registry (§4.3): entries `(first_id, deadline,
timeout_cb)` for owned conversations awaiting a reply. -/
abbrev Registry := List (Nat × Nat × Nat)

/-- `register_timeout` (§4.3): inserts/replaces the entry keyed by the
conversation's `first_id`; the previous deadline and callback are
dropped. -/
def registerTimeout (r : Registry) (k deadline cb : Nat) : Registry :=
  (k, deadline, cb) :: r.filter (fun e => e.1 ≠ k)

/-- `cancel` (§4.3): removes an entry if present. -/
def cancelTimeout (r : Registry) (k : Nat) : Registry :=
  r.filter (fun e => e.1 ≠ k)

/-- `tick` (§4.3), the returned part: all entries with `deadline ≤ now`,
whose callbacks the caller fires exactly once. -/
def tickExpired (r : Registry) (now : Nat) : Registry :=
  r.filter (fun e => e.2.1 ≤ now)

/-- `tick` (§4.3), the kept part: entries with `deadline > now`. -/
def tickRemaining (r : Registry) (now : Nat) : Registry :=
  r.filter (fun e => ¬ e.2.1 ≤ now)

/-- The registry entries of one conversation. -/
def entriesFor (r : Registry) (k : Nat) : Registry :=
  r.filter (fun e => e.1 = k)

/-- A schema repository: resolves a `(module, type)` name pair to the
registered SBS type (spec §6, glossary). -/
abbrev SchemaRepo := Option Bytes → Bytes → Option SbsType

/-- Connection state (§4.4): shutdown phase, the per-peer message id
counter (starts at 1, §3), the outbound FIFO queue, the receive queue,
the conversation registry and the ping task's state.  `frameReceived`
records whether any frame arrived during the current ping interval. -/
structure Conn where
  phase : Phase
  nextId : Nat
  sendQueue : List Msg
  recvQueue : List ReceivedMessage
  registry : Registry
  pingState : PingState
  frameReceived : Bool
deriving DecidableEq

/-- A freshly established connection. -/
def initConn : Conn :=
  ⟨.opened, 1, [], [], [], .idle, false⟩

def hatChatterModule : Bytes := strBytes "HatChatter"
def msgPingType : Bytes := strBytes "MsgPing"
def msgPongType : Bytes := strBytes "MsgPong"

/-- The protocol-internal ping payload (§4.4 reader task, §6). -/
def isPingMsg (m : Msg) : Bool :=
  m.data.module == some hatChatterModule && m.data.type == msgPingType

/-- The protocol-internal pong payload (§4.4 reader task, §6). -/
def isPongMsg (m : Msg) : Bool :=
  m.data.module == some hatChatterModule && m.data.type == msgPongType

/-- `send` (§4.4 public contract): rejected once `Closing` has begun;
otherwise allocate a fresh message id, open a new owned conversation
when `conv` is absent, build the wire `Msg` (`owner` is this peer's
self-view), enqueue it FIFO, register a timeout when given (replacement
wins) and cancel the conversation's timeout when `last`.  `sendFull`
additionally reports the enqueued wire message; the public `send`
returns only the conversation. -/
def sendFull (c : Conn) (d : DataRec) (conv : Option Conversation)
    (last token : Bool) (timeout : Option (Nat × Nat)) :
    Except ChatterError (Conn × Conversation × Msg) :=
  if c.phase = .opened then
    let cv := match conv with
      | none => ⟨c.nextId, true⟩
      | some cv => cv
    let msg : Msg := ⟨c.nextId, cv.firstId, cv.owner, token, last,
      ⟨d.module, d.type, encodeVal d.data⟩⟩
    let reg1 := match timeout with
      | some (dl, cb) => registerTimeout c.registry cv.firstId dl cb
      | none => c.registry
    let reg2 := if last then cancelTimeout reg1 cv.firstId else reg1
    .ok ({ c with nextId := c.nextId + 1,
                  sendQueue := c.sendQueue ++ [msg],
                  registry := reg2 }, cv, msg)
  else .error .connectionClosed

/-- The public `send` (§4.4): returns the `Conversation`. -/
def send (c : Conn) (d : DataRec) (conv : Option Conversation)
    (last token : Bool) (timeout : Option (Nat × Nat)) :
    Except ChatterError (Conn × Conversation) :=
  match sendFull c d conv last token timeout with
  | .ok (c1, cv, _) => .ok (c1, cv)
  | .error e => .error e

/-- Result of a `receive` call. -/
inductive RecvResult where
  | delivered : Conn → ReceivedMessage → RecvResult
  | blocked : RecvResult
  | connectionClosed : RecvResult
deriving DecidableEq

/-- `receive` (§4.4 public contract): yields the next queued message;
suspends while the connection is open and the queue empty; raises a
connection error once closing has begun and nothing is queued. -/
def receive (c : Conn) : RecvResult :=
  match c.recvQueue with
  | m :: rest => .delivered { c with recvQueue := rest } m
  | [] => if c.phase = .opened then .blocked else .connectionClosed

/-- `async_close` (§4.4 shutdown): enter `Closing` and complete
teardown — the queues are closed and drained, pending conversations are
abandoned without firing their callbacks, and once all tasks have
exited the state is `Closed`. -/
def asyncClose (c : Conn) : Conn :=
  { c with phase := .closed, sendQueue := [], recvQueue := [], registry := [] }

/-- Finish `Closing → Closed` (§4.4): all tasks have exited. -/
def finishShutdown (c : Conn) : Conn :=
  if c.phase = .closing then
    { c with phase := .closed, sendQueue := [], recvQueue := [], registry := [] }
  else c

def isClosed (c : Conn) : Bool := c.phase == .closed

/-- `wait_closed` resolves exactly when the state is `Closed` (§4.4). -/
def waitClosedResolved (c : Conn) : Bool := c.phase == .closed

/-- Reader-task handling of one decoded `Msg` (§4.4 task 1): internal
pings are answered with a pong (same conversation, owner inverted,
`last = true`) and not delivered; internal pongs cancel the pending
ping; any other message is decoded against the schema repository and
pushed to the receive queue with the conversation stored from the
receiver's viewpoint (`owner` inverted, §3); a reply cancels the
conversation's pending timeout (§4.3).  Any decode failure is a fatal
protocol error (§4.2, §7). -/
def processFrame (repo : SchemaRepo) (c : Conn) (m : Msg) : Conn :=
  let c1 : Conn := { c with frameReceived := true }
  if isPingMsg m then
    let pong : Msg := ⟨c1.nextId, m.first, !m.owner, m.token, true,
      ⟨some hatChatterModule, msgPongType, []⟩⟩
    { c1 with nextId := c1.nextId + 1, sendQueue := c1.sendQueue ++ [pong] }
  else if isPongMsg m then
    { c1 with pingState := .idle, registry := cancelTimeout c1.registry m.first }
  else
    match repo m.data.module m.data.type with
    | none => { c1 with phase := .closing }
    | some t =>
      match decodeVal t m.data.data with
      | some (v, []) =>
        { c1 with
          recvQueue := c1.recvQueue ++
            [⟨⟨m.first, !m.owner⟩, m.id == m.first, m.last, m.token,
              ⟨m.data.module, m.data.type, v⟩⟩],
          registry := cancelTimeout c1.registry m.first }
      | _ => { c1 with phase := .closing }

/-- Reader-task handling of arriving bytes (§4.2 read path, §4.4): read
one frame; a decode failure, EOF mid-frame or unsatisfiable length is a
fatal protocol error and the connection enters `Closing`. -/
def processIncoming (repo : SchemaRepo) (c : Conn) (bs : Bytes) : Conn :=
  if c.phase = .opened then
    match readFrame bs with
    | none => { c with phase := .closing }
    | some (m, _) => processFrame repo c m
  else c

/-- Ping-task wakeup after one `ping_timeout` interval (§4.4 task 3):
if no frame was observed, enqueue an internal ping (an owned
conversation, `last = false`) and await the pong for one more interval;
an unanswered pong closes the connection. -/
def pingTimerFire (c : Conn) : Conn :=
  if c.phase = .opened then
    match c.pingState with
    | .idle =>
      if c.frameReceived then { c with frameReceived := false }
      else
        let ping : Msg := ⟨c.nextId, c.nextId, true, true, false,
          ⟨some hatChatterModule, msgPingType, []⟩⟩
        { c with nextId := c.nextId + 1,
                 sendQueue := c.sendQueue ++ [ping],
                 pingState := .waitingPong,
                 frameReceived := false }
    | .waitingPong =>
      if c.frameReceived then { c with pingState := .idle, frameReceived := false }
      else { c with phase := .closing }
  else c

/-! ## Step lemmas -/

theorem readFrame_encodeFrame_exact (m : Msg) :
    readFrame (encodeFrame m) = some (m, []) := by
  simpa using readFrame_encodeFrame m []

theorem isPingMsg_false (m : Msg) (hmod : m.data.module ≠ some hatChatterModule) :
    isPingMsg m = false := by
  simp [isPingMsg, hmod]

theorem isPongMsg_false (m : Msg) (hmod : m.data.module ≠ some hatChatterModule) :
    isPongMsg m = false := by
  simp [isPongMsg, hmod]

/-- Reader handling of a framed user message: it is delivered on the
receive queue with the conversation stored from the receiver's
viewpoint. -/
theorem processIncoming_user (repo : SchemaRepo) (c : Conn) (m : Msg)
    (t : SbsType) (v : SbsValue)
    (hopen : c.phase = .opened)
    (hmod : m.data.module ≠ some hatChatterModule)
    (hrepo : repo m.data.module m.data.type = some t)
    (hdec : decodeVal t m.data.data = some (v, [])) :
    processIncoming repo c (encodeFrame m) =
      { c with frameReceived := true,
               recvQueue := c.recvQueue ++
                 [⟨⟨m.first, !m.owner⟩, m.id == m.first, m.last, m.token,
                   ⟨m.data.module, m.data.type, v⟩⟩],
               registry := cancelTimeout c.registry m.first } := by
  rw [processIncoming, if_pos hopen, readFrame_encodeFrame_exact]
  show processFrame repo c m = _
  rw [processFrame]
  simp only [isPingMsg_false m hmod, isPongMsg_false m hmod,
    Bool.false_eq_true, if_false, hrepo, hdec]

/-- The two-peer exchange of the test suite: X opens a conversation
with `last = false`, Y receives it and replies on the same
conversation, X receives the reply.  Yields the conversation X's send
returned, both wire messages and both received messages. -/
def exchange (repo : SchemaRepo) (cx cy : Conn) (d1 d2 : DataRec) :
    Option (Conversation × Msg × ReceivedMessage × Msg × ReceivedMessage) :=
  match sendFull cx d1 none false true none with
  | .error _ => none
  | .ok (cx1, cvx, msg1) =>
    match receive (processIncoming repo cy (encodeFrame msg1)) with
    | .delivered cy2 m1 =>
      match sendFull cy2 d2 (some m1.conv) false true none with
      | .error _ => none
      | .ok (_, _, msg2) =>
        match receive (processIncoming repo cx1 (encodeFrame msg2)) with
        | .delivered _ m2 => some (cvx, msg1, m1, msg2, m2)
        | _ => none
    | _ => none

theorem filter_ne_filter_eq (r : Registry) (k : Nat) :
    (r.filter (fun e => e.1 ≠ k)).filter (fun e => e.1 = k) = [] := by
  induction r with
  | nil => rfl
  | cons e r ih =>
    by_cases he : e.1 = k
    · simp [he, ih]
    · simp [List.filter_cons, he, ih]

theorem entriesFor_filter (r : Registry) (p : Nat × Nat × Nat → Bool) (k : Nat) :
    entriesFor (r.filter p) k = (entriesFor r k).filter p := by
  rw [entriesFor, entriesFor, List.filter_filter, List.filter_filter]
  congr 1
  funext e
  rw [Bool.and_comm]

theorem entriesFor_register (r : Registry) (k dl cb : Nat) :
    entriesFor (registerTimeout r k dl cb) k = [(k, dl, cb)] := by
  rw [registerTimeout, entriesFor, List.filter_cons]
  simp only [decide_True, if_true]
  rw [show (List.filter (fun e => decide (e.1 = k))
    (List.filter (fun e => decide (e.1 ≠ k)) r)) = [] from filter_ne_filter_eq r k]

theorem send_some_eq (c : Conn) (d : DataRec) (cv : Conversation)
    (last token : Bool) (timeout : Option (Nat × Nat)) (hopen : c.phase = .opened) :
    send c d (some cv) last token timeout =
      .ok ({ c with
              nextId := c.nextId + 1,
              sendQueue := c.sendQueue ++ [⟨c.nextId, cv.firstId, cv.owner, token, last,
                ⟨d.module, d.type, encodeVal d.data⟩⟩],
              registry :=
                (if last then
                  cancelTimeout
                    (match timeout with
                      | some (dl, cb) => registerTimeout c.registry cv.firstId dl cb
                      | none => c.registry) cv.firstId
                 else
                  (match timeout with
                    | some (dl, cb) => registerTimeout c.registry cv.firstId dl cb
                    | none => c.registry)) }, cv) := by
  rw [send, sendFull, if_pos hopen]

theorem processIncoming_frame (repo : SchemaRepo) (c : Conn) (m : Msg)
    (hopen : c.phase = .opened) :
    processIncoming repo c (encodeFrame m) = processFrame repo c m := by
  rw [processIncoming, if_pos hopen, readFrame_encodeFrame_exact]

theorem exchange_spec (repo : SchemaRepo) (t1 t2 : SbsType) (cx cy : Conn)
    (d1 d2 : DataRec)
    (hx : cx.phase = .opened) (hy : cy.phase = .opened)
    (hqx : cx.recvQueue = []) (hqy : cy.recvQueue = [])
    (hrepo1 : repo d1.module d1.type = some t1)
    (hconf1 : conforms t1 d1.data = true)
    (hmod1 : d1.module ≠ some hatChatterModule)
    (hrepo2 : repo d2.module d2.type = some t2)
    (hconf2 : conforms t2 d2.data = true)
    (hmod2 : d2.module ≠ some hatChatterModule) :
    exchange repo cx cy d1 d2 =
      some (⟨cx.nextId, true⟩,
            ⟨cx.nextId, cx.nextId, true, true, false,
              ⟨d1.module, d1.type, encodeVal d1.data⟩⟩,
            ⟨⟨cx.nextId, false⟩, true, false, true,
              ⟨d1.module, d1.type, d1.data⟩⟩,
            ⟨cy.nextId, cx.nextId, false, true, false,
              ⟨d2.module, d2.type, encodeVal d2.data⟩⟩,
            ⟨⟨cx.nextId, true⟩, cy.nextId == cx.nextId, false, true,
              ⟨d2.module, d2.type, d2.data⟩⟩) := by
  obtain ⟨phx, nx, sqx, rqx, rgx, psx, frx⟩ := cx
  obtain ⟨phy, ny, sqy, rqy, rgy, psy, fry⟩ := cy
  replace hx : phx = .opened := hx
  replace hy : phy = .opened := hy
  replace hqx : rqx = [] := hqx
  replace hqy : rqy = [] := hqy
  subst hx hy hqx hqy
  have hdec1 : decodeVal t1 (encodeVal d1.data) = some (d1.data, []) := by
    simpa using decodeVal_encodeVal t1 d1.data hconf1 []
  have hdec2 : decodeVal t2 (encodeVal d2.data) = some (d2.data, []) := by
    simpa using decodeVal_encodeVal t2 d2.data hconf2 []
  have e2 := processIncoming_user repo ⟨.opened, ny, sqy, [], rgy, psy, fry⟩
    ⟨nx, nx, true, true, false, ⟨d1.module, d1.type, encodeVal d1.data⟩⟩
    t1 d1.data rfl hmod1 hrepo1 hdec1
  have e5 := processIncoming_user repo
    ⟨.opened, nx + 1, sqx ++ [⟨nx, nx, true, true, false,
      ⟨d1.module, d1.type, encodeVal d1.data⟩⟩], [], rgx, psx, frx⟩
    ⟨ny, nx, false, true, false, ⟨d2.module, d2.type, encodeVal d2.data⟩⟩
    t2 d2.data rfl hmod2 hrepo2 hdec2
  simp only [List.nil_append] at e2 e5
  simp only [exchange, sendFull, receive, e2, e5, beq_self_eq_true,
    Bool.not_true, Bool.not_false, List.nil_append, if_true, if_false,
    Bool.false_eq_true, reduceIte]

/-! ## Concrete fixtures mirroring the test suite -/

/-- The schema repository of the test suite: the user module `Test`
with `Data = Integer`, plus the built-in `Integer` type. -/
def testRepo : SchemaRepo := fun mo ty =>
  if mo = some (strBytes "Test") ∧ ty = strBytes "Data" then some .integer
  else if mo = none ∧ ty = strBytes "Integer" then some .integer
  else none

/-- `Data(module='Test', type='Data', data=123)` of the test suite. -/
def testData : DataRec := ⟨some (strBytes "Test"), strBytes "Data", .integer 123⟩

/-- `Data(module=None, type='Integer', data=123)` of the test suite. -/
def testDataNative : DataRec := ⟨none, strBytes "Integer", .integer 123⟩

/-- The envelope record of `test_sbs_repo`. -/
def testMsg : Msg := ⟨1, 2, true, false, true,
  ⟨some (strBytes "Test"), strBytes "Data", encodeVal (.integer 123)⟩⟩

/-! ## Claim theorems -/

/-- Claim C3: after `async_close()` completes on a connection,
`is_closed` is true and `wait_closed()` has resolved; every subsequent
`send` raises `ConnectionClosed`, and a `receive` pending or issued
after closing raises `ConnectionClosed`. -/
theorem c3_close_semantics (c : Conn) (d : DataRec) (conv : Option Conversation)
    (last token : Bool) (timeout : Option (Nat × Nat)) :
    isClosed (asyncClose c) = true ∧
    waitClosedResolved (asyncClose c) = true ∧
    send (asyncClose c) d conv last token timeout = .error .connectionClosed ∧
    receive (asyncClose c) = .connectionClosed :=
  ⟨rfl, rfl, rfl, rfl⟩

/-- Claim C4: `connect` and `listen` accept exactly the addresses
matching `^(tcp|ssl)\+sbs://<host>:<port>$`; any other address string
makes both raise `AddressInvalid` synchronously, in particular the two
malformed addresses of the test suite (missing port; scheme without the
`+sbs` suffix). -/
theorem c4_address_validation :
    (∀ s : String,
      (connectAddressCheck s = .error .addressInvalid ∧
       listenAddressCheck s = .error .addressInvalid) ↔ ¬ AddressGrammar s) ∧
    connectAddressCheck "tcp+sbs://127.0.0.1" = .error .addressInvalid ∧
    connectAddressCheck "tcp://127.0.0.1:1234" = .error .addressInvalid ∧
    listenAddressCheck "tcp+sbs://127.0.0.1" = .error .addressInvalid ∧
    listenAddressCheck "tcp://127.0.0.1:1234" = .error .addressInvalid := by
  refine ⟨?_, rfl, rfl, rfl, rfl⟩
  intro s
  rw [← parseAddress_isSome_iff]
  constructor
  · rintro ⟨h1, _⟩ hsome
    rw [connectAddressCheck] at h1
    match hp : parseAddress s with
    | some a => rw [hp] at h1; simp at h1
    | none => rw [hp] at hsome; simp at hsome
  · intro hns
    have hp : parseAddress s = none := by
      cases hq : parseAddress s with
      | none => rfl
      | some a => exact absurd (by rw [hq]; rfl) hns
    exact ⟨by rw [connectAddressCheck, hp], by rw [listenAddressCheck, hp]⟩

/-- Claim C5: undecodable bytes on the stream (any decode failure, EOF
mid-frame, or unsatisfiable frame length — exactly the cases where
`readFrame` fails) are a fatal protocol error: the connection enters
`Closing`, a `receive` on it raises `ConnectionClosed` and
`wait_closed` resolves once teardown finishes; in particular for the
raw bytes `01 02 03 04` of the test suite. -/
theorem c5_protocol_error_closes (repo : SchemaRepo) (c : Conn) (bs : Bytes)
    (hopen : c.phase = .opened) (hq : c.recvQueue = [])
    (hbad : readFrame bs = none) :
    (processIncoming repo c bs).phase = .closing ∧
    receive (processIncoming repo c bs) = .connectionClosed ∧
    waitClosedResolved (finishShutdown (processIncoming repo c bs)) = true ∧
    readFrame [1, 2, 3, 4] = none := by
  have h1 : processIncoming repo c bs = { c with phase := .closing } := by
    rw [processIncoming, if_pos hopen, hbad]
  rw [h1]
  refine ⟨rfl, ?_, rfl, by decide⟩
  rw [receive]
  simp [hq]

/-- Witness for C5 at the test's input: a fresh server-side connection
receiving the raw bytes `01 02 03 04`. -/
theorem c5_protocol_error_closes_witness :
    (processIncoming testRepo initConn [1, 2, 3, 4]).phase = .closing ∧
    receive (processIncoming testRepo initConn [1, 2, 3, 4]) = .connectionClosed ∧
    waitClosedResolved (finishShutdown (processIncoming testRepo initConn [1, 2, 3, 4])) = true ∧
    readFrame [1, 2, 3, 4] = none :=
  c5_protocol_error_closes testRepo initConn [1, 2, 3, 4] rfl rfl (by decide)

/-- Claim C6: when several sends on the same conversation each register
a timeout, the latest registration is the only entry left for that
conversation (earlier callbacks are dropped and can never fire), a tick
fires it exactly when its deadline has passed, and after such a tick no
entry for the conversation remains — it fires at most once. -/
theorem c6_latest_timeout_wins (c : Conn) (d1 d2 : DataRec) (cv : Conversation)
    (tk1 tk2 : Bool) (dl1 cb1 dl2 cb2 : Nat)
    (hopen : c.phase = .opened) :
    ∃ c1 c2,
      send c d1 (some cv) false tk1 (some (dl1, cb1)) = .ok (c1, cv) ∧
      send c1 d2 (some cv) false tk2 (some (dl2, cb2)) = .ok (c2, cv) ∧
      entriesFor c2.registry cv.firstId = [(cv.firstId, dl2, cb2)] ∧
      (∀ now, entriesFor (tickExpired c2.registry now) cv.firstId =
        if dl2 ≤ now then [(cv.firstId, dl2, cb2)] else []) ∧
      (∀ now, entriesFor (tickRemaining c2.registry now) cv.firstId =
        if dl2 ≤ now then [] else [(cv.firstId, dl2, cb2)]) := by
  refine ⟨_, _, send_some_eq c d1 cv false tk1 (some (dl1, cb1)) hopen,
    send_some_eq _ d2 cv false tk2 (some (dl2, cb2)) hopen, ?_, ?_, ?_⟩
  · simp only [Bool.false_eq_true, if_false]
    exact entriesFor_register _ cv.firstId dl2 cb2
  · intro now
    simp only [Bool.false_eq_true, if_false, tickExpired]
    rw [entriesFor_filter, entriesFor_register]
    by_cases h : dl2 ≤ now <;> simp [h]
  · intro now
    simp only [Bool.false_eq_true, if_false, tickRemaining]
    rw [entriesFor_filter, entriesFor_register]
    by_cases h : dl2 ≤ now <;> simp [h] <;> omega

/-- Witness for C6: two sends on one conversation from a fresh
connection, with deadlines 1000 and 1 and distinct callbacks. -/
theorem c6_latest_timeout_wins_witness :
    ∃ c1 c2,
      send initConn testData (some ⟨1, true⟩) false true (some (1000, 7)) = .ok (c1, ⟨1, true⟩) ∧
      send c1 testData (some ⟨1, true⟩) false true (some (1, 8)) = .ok (c2, ⟨1, true⟩) ∧
      entriesFor c2.registry (1 : Nat) = [(1, 1, 8)] ∧
      (∀ now, entriesFor (tickExpired c2.registry now) (1 : Nat) =
        if 1 ≤ now then [(1, 1, 8)] else []) ∧
      (∀ now, entriesFor (tickRemaining c2.registry now) (1 : Nat) =
        if 1 ≤ now then [] else [(1, 1, 8)]) :=
  c6_latest_timeout_wins initConn testData testData ⟨1, true⟩ true true 1000 7 1 8 rfl

/-- Claim C9: with ping timeout configured, an idle interval with no
inbound frame makes the connection enqueue an internal ping (an owned
conversation, `last = false`), and a second silent interval (no pong)
closes the connection: against a peer that never writes, two timer
expiries suffice for `wait_closed` to resolve. -/
theorem c9_ping_timeout_closes (c : Conn) (hopen : c.phase = .opened)
    (hidle : c.pingState = .idle) (hnf : c.frameReceived = false) :
    ∃ ping : Msg,
      (pingTimerFire c).sendQueue = c.sendQueue ++ [ping] ∧
      isPingMsg ping = true ∧ ping.owner = true ∧ ping.last = false ∧
      (pingTimerFire c).pingState = .waitingPong ∧
      (pingTimerFire (pingTimerFire c)).phase = .closing ∧
      waitClosedResolved (finishShutdown (pingTimerFire (pingTimerFire c))) = true := by
  have h1 : pingTimerFire c =
      { c with nextId := c.nextId + 1,
               sendQueue := c.sendQueue ++ [⟨c.nextId, c.nextId, true, true, false,
                 ⟨some hatChatterModule, msgPingType, []⟩⟩],
               pingState := .waitingPong,
               frameReceived := false } := by
    rw [pingTimerFire, if_pos hopen, hidle]
    simp [hnf]
  have h2 : pingTimerFire (pingTimerFire c) =
      { c with nextId := c.nextId + 1,
               sendQueue := c.sendQueue ++ [⟨c.nextId, c.nextId, true, true, false,
                 ⟨some hatChatterModule, msgPingType, []⟩⟩],
               pingState := .waitingPong,
               frameReceived := false,
               phase := .closing } := by
    rw [h1, pingTimerFire, if_pos hopen]
    rfl
  refine ⟨⟨c.nextId, c.nextId, true, true, false,
    ⟨some hatChatterModule, msgPingType, []⟩⟩, ?_, ?_, rfl, rfl, ?_, ?_, ?_⟩
  · rw [h1]
  · simp [isPingMsg]
  · rw [h1]
  · rw [h2]
  · rw [h2]
    rfl

/-- Witness for C9: a fresh connection whose peer never writes. -/
theorem c9_ping_timeout_closes_witness :
    ∃ ping : Msg,
      (pingTimerFire initConn).sendQueue = initConn.sendQueue ++ [ping] ∧
      isPingMsg ping = true ∧ ping.owner = true ∧ ping.last = false ∧
      (pingTimerFire initConn).pingState = .waitingPong ∧
      (pingTimerFire (pingTimerFire initConn)).phase = .closing ∧
      waitClosedResolved (finishShutdown (pingTimerFire (pingTimerFire initConn))) = true :=
  c9_ping_timeout_closes initConn rfl rfl rfl

/-- Claim C10: for every well-formed `Msg` envelope record, decoding
the result of encoding it under the `Hat`/`Msg` schema yields the
original record, and likewise for any value conforming to a payload
type registered in the repository. -/
theorem c10_sbs_roundtrip (m : Msg) (t : SbsType) (v : SbsValue)
    (h : conforms t v = true) :
    decodeMsg (encodeMsg m) = some (m, []) ∧
    decodeVal t (encodeVal v) = some (v, []) :=
  ⟨by simpa using decodeMsg_encodeMsg m [], by simpa using decodeVal_encodeVal t v h []⟩

/-- Witness for C10 at the envelope and payload of `test_sbs_repo`. -/
theorem c10_sbs_roundtrip_witness :
    decodeMsg (encodeMsg testMsg) = some (testMsg, []) ∧
    decodeVal .integer (encodeVal (.integer 123)) = some (.integer 123, []) :=
  c10_sbs_roundtrip testMsg .integer (.integer 123) (by decide)

/-- Claim C1: for every `Data` value sent on a connection, the peer's
`receive` yields a message whose `data` equals the sent value — the
`module` field (including `module = none` for built-in SBS types), the
`type` field and the decoded inner value are preserved bit-exact across
the wire. -/
theorem c1_send_receive_roundtrip (repo : SchemaRepo) (t : SbsType)
    (cx cy : Conn) (d : DataRec)
    (hx : cx.phase = .opened) (hy : cy.phase = .opened)
    (hqy : cy.recvQueue = [])
    (hrepo : repo d.module d.type = some t)
    (hconf : conforms t d.data = true)
    (hmod : d.module ≠ some hatChatterModule) :
    ∃ (cx1 : Conn) (cv : Conversation) (msg : Msg) (cy1 : Conn)
      (m : ReceivedMessage),
      sendFull cx d none true true none = .ok (cx1, cv, msg) ∧
      send cx d none true true none = .ok (cx1, cv) ∧
      receive (processIncoming repo cy (encodeFrame msg)) = .delivered cy1 m ∧
      m.data = d := by
  obtain ⟨phx, nx, sqx, rqx, rgx, psx, frx⟩ := cx
  obtain ⟨phy, ny, sqy, rqy, rgy, psy, fry⟩ := cy
  replace hx : phx = .opened := hx
  replace hy : phy = .opened := hy
  replace hqy : rqy = [] := hqy
  subst hx hy hqy
  have hdec : decodeVal t (encodeVal d.data) = some (d.data, []) := by
    simpa using decodeVal_encodeVal t d.data hconf []
  have e2 := processIncoming_user repo ⟨.opened, ny, sqy, [], rgy, psy, fry⟩
    ⟨nx, nx, true, true, true, ⟨d.module, d.type, encodeVal d.data⟩⟩
    t d.data rfl hmod hrepo hdec
  refine ⟨⟨.opened, nx + 1,
      sqx ++ [⟨nx, nx, true, true, true, ⟨d.module, d.type, encodeVal d.data⟩⟩],
      rqx, cancelTimeout rgx nx, psx, frx⟩,
    ⟨nx, true⟩,
    ⟨nx, nx, true, true, true, ⟨d.module, d.type, encodeVal d.data⟩⟩,
    ⟨.opened, ny, sqy, [], cancelTimeout rgy nx, psy, true⟩,
    ⟨⟨nx, false⟩, nx == nx, true, true, ⟨d.module, d.type, d.data⟩⟩,
    ?_, ?_, ?_, ?_⟩
  · rfl
  · rfl
  · rw [e2]; rfl
  · rfl

/-- Witness for C1 at the test's repository and payload
`Data(module='Test', type='Data', data=123)`. -/
theorem c1_send_receive_roundtrip_witness :
    ∃ (cx1 : Conn) (cv : Conversation) (msg : Msg) (cy1 : Conn)
      (m : ReceivedMessage),
      sendFull initConn testData none true true none = .ok (cx1, cv, msg) ∧
      send initConn testData none true true none = .ok (cx1, cv) ∧
      receive (processIncoming testRepo initConn (encodeFrame msg)) = .delivered cy1 m ∧
      m.data = testData :=
  c1_send_receive_roundtrip testRepo .integer initConn initConn testData
    rfl rfl rfl (by decide) (by decide) (by decide)

/-- Claim C7: a `send` called with only data (all other arguments
defaulted: no conversation, `last = true`, `token = true`, no timeout)
opens a new conversation owned by this peer, and the peer's
corresponding received message has `first = true` (where `first` is
defined as `msg.id == msg.first`), `last = true` and `token = true`. -/
theorem c7_default_send_flags (repo : SchemaRepo) (t : SbsType)
    (cx cy : Conn) (d : DataRec)
    (hx : cx.phase = .opened) (hy : cy.phase = .opened)
    (hqy : cy.recvQueue = [])
    (hrepo : repo d.module d.type = some t)
    (hconf : conforms t d.data = true)
    (hmod : d.module ≠ some hatChatterModule) :
    ∃ (cx1 : Conn) (cv : Conversation) (msg : Msg) (cy1 : Conn)
      (m : ReceivedMessage),
      sendFull cx d none true true none = .ok (cx1, cv, msg) ∧
      cv.owner = true ∧ cv.firstId = cx.nextId ∧ msg.first = msg.id ∧
      receive (processIncoming repo cy (encodeFrame msg)) = .delivered cy1 m ∧
      m.first = (msg.id == msg.first) ∧ m.first = true ∧ m.last = true ∧
      m.token = true := by
  obtain ⟨phx, nx, sqx, rqx, rgx, psx, frx⟩ := cx
  obtain ⟨phy, ny, sqy, rqy, rgy, psy, fry⟩ := cy
  replace hx : phx = .opened := hx
  replace hy : phy = .opened := hy
  replace hqy : rqy = [] := hqy
  subst hx hy hqy
  have hdec : decodeVal t (encodeVal d.data) = some (d.data, []) := by
    simpa using decodeVal_encodeVal t d.data hconf []
  have e2 := processIncoming_user repo ⟨.opened, ny, sqy, [], rgy, psy, fry⟩
    ⟨nx, nx, true, true, true, ⟨d.module, d.type, encodeVal d.data⟩⟩
    t d.data rfl hmod hrepo hdec
  refine ⟨⟨.opened, nx + 1,
      sqx ++ [⟨nx, nx, true, true, true, ⟨d.module, d.type, encodeVal d.data⟩⟩],
      rqx, cancelTimeout rgx nx, psx, frx⟩,
    ⟨nx, true⟩,
    ⟨nx, nx, true, true, true, ⟨d.module, d.type, encodeVal d.data⟩⟩,
    ⟨.opened, ny, sqy, [], cancelTimeout rgy nx, psy, true⟩,
    ⟨⟨nx, false⟩, nx == nx, true, true, ⟨d.module, d.type, d.data⟩⟩,
    ?_, ?_, ?_, ?_, ?_, ?_, ?_, ?_, ?_⟩
  · rfl
  · rfl
  · rfl
  · rfl
  · rw [e2]; rfl
  · rfl
  · simp
  · rfl
  · rfl

/-- Witness for C7 at the test's repository and payload. -/
theorem c7_default_send_flags_witness :
    ∃ (cx1 : Conn) (cv : Conversation) (msg : Msg) (cy1 : Conn)
      (m : ReceivedMessage),
      sendFull initConn testData none true true none = .ok (cx1, cv, msg) ∧
      cv.owner = true ∧ cv.firstId = initConn.nextId ∧ msg.first = msg.id ∧
      receive (processIncoming testRepo initConn (encodeFrame msg)) = .delivered cy1 m ∧
      m.first = (msg.id == msg.first) ∧ m.first = true ∧ m.last = true ∧
      m.token = true :=
  c7_default_send_flags testRepo .integer initConn initConn testData
    rfl rfl rfl (by decide) (by decide) (by decide)

/-- Claim C2: for a conversation opened by a send from peer X and
received by peer Y, X observes `owner = true` on its send and on its
receive of the reply, Y observes `owner = false`; the `owner` bit on
the wire is always the sender's self-view and the receiver stores its
inversion. -/
theorem c2_ownership_views (repo : SchemaRepo) (t1 t2 : SbsType)
    (cx cy : Conn) (d1 d2 : DataRec)
    (hx : cx.phase = .opened) (hy : cy.phase = .opened)
    (hqx : cx.recvQueue = []) (hqy : cy.recvQueue = [])
    (hrepo1 : repo d1.module d1.type = some t1)
    (hconf1 : conforms t1 d1.data = true)
    (hmod1 : d1.module ≠ some hatChatterModule)
    (hrepo2 : repo d2.module d2.type = some t2)
    (hconf2 : conforms t2 d2.data = true)
    (hmod2 : d2.module ≠ some hatChatterModule) :
    ∃ (cvx : Conversation) (msg1 : Msg) (m1 : ReceivedMessage)
      (msg2 : Msg) (m2 : ReceivedMessage),
      exchange repo cx cy d1 d2 = some (cvx, msg1, m1, msg2, m2) ∧
      cvx.owner = true ∧
      msg1.owner = cvx.owner ∧ m1.conv.owner = (!msg1.owner) ∧
      m1.conv.owner = false ∧ m1.conv.firstId = cvx.firstId ∧
      msg2.owner = m1.conv.owner ∧ m2.conv.owner = (!msg2.owner) ∧
      m2.conv.owner = true ∧ m2.conv.firstId = cvx.firstId :=
  ⟨⟨cx.nextId, true⟩,
   ⟨cx.nextId, cx.nextId, true, true, false,
     ⟨d1.module, d1.type, encodeVal d1.data⟩⟩,
   ⟨⟨cx.nextId, false⟩, true, false, true, ⟨d1.module, d1.type, d1.data⟩⟩,
   ⟨cy.nextId, cx.nextId, false, true, false,
     ⟨d2.module, d2.type, encodeVal d2.data⟩⟩,
   ⟨⟨cx.nextId, true⟩, cy.nextId == cx.nextId, false, true,
     ⟨d2.module, d2.type, d2.data⟩⟩,
   exchange_spec repo t1 t2 cx cy d1 d2 hx hy hqx hqy
     hrepo1 hconf1 hmod1 hrepo2 hconf2 hmod2,
   rfl, rfl, rfl, rfl, rfl, rfl, rfl, rfl, rfl⟩

/-- Witness for C2 at the test's repository, with the `Test.Data`
payload one way and the built-in `Integer` payload back. -/
theorem c2_ownership_views_witness :
    ∃ (cvx : Conversation) (msg1 : Msg) (m1 : ReceivedMessage)
      (msg2 : Msg) (m2 : ReceivedMessage),
      exchange testRepo initConn initConn testData testDataNative =
        some (cvx, msg1, m1, msg2, m2) ∧
      cvx.owner = true ∧
      msg1.owner = cvx.owner ∧ m1.conv.owner = (!msg1.owner) ∧
      m1.conv.owner = false ∧ m1.conv.firstId = cvx.firstId ∧
      msg2.owner = m1.conv.owner ∧ m2.conv.owner = (!msg2.owner) ∧
      m2.conv.owner = true ∧ m2.conv.firstId = cvx.firstId :=
  c2_ownership_views testRepo .integer .integer initConn initConn
    testData testDataNative rfl rfl rfl rfl
    (by decide) (by decide) (by decide) (by decide) (by decide) (by decide)

/-- Claim C8: conversation equality is decided by `first_id` together
with the `owner` flag from the comparing peer's viewpoint; when a peer
sends on a conversation and later receives a reply on it, the received
message's `conv` compares equal to the `Conversation` its own send
returned. -/
theorem c8_conversation_equality (repo : SchemaRepo) (t1 t2 : SbsType)
    (cx cy : Conn) (d1 d2 : DataRec)
    (hx : cx.phase = .opened) (hy : cy.phase = .opened)
    (hqx : cx.recvQueue = []) (hqy : cy.recvQueue = [])
    (hrepo1 : repo d1.module d1.type = some t1)
    (hconf1 : conforms t1 d1.data = true)
    (hmod1 : d1.module ≠ some hatChatterModule)
    (hrepo2 : repo d2.module d2.type = some t2)
    (hconf2 : conforms t2 d2.data = true)
    (hmod2 : d2.module ≠ some hatChatterModule) :
    ∃ (cvx : Conversation) (msg1 : Msg) (m1 : ReceivedMessage)
      (msg2 : Msg) (m2 : ReceivedMessage),
      exchange repo cx cy d1 d2 = some (cvx, msg1, m1, msg2, m2) ∧
      m2.conv = cvx ∧
      (∀ a b : Conversation,
        a = b ↔ a.firstId = b.firstId ∧ a.owner = b.owner) := by
  refine ⟨⟨cx.nextId, true⟩,
    ⟨cx.nextId, cx.nextId, true, true, false,
      ⟨d1.module, d1.type, encodeVal d1.data⟩⟩,
    ⟨⟨cx.nextId, false⟩, true, false, true, ⟨d1.module, d1.type, d1.data⟩⟩,
    ⟨cy.nextId, cx.nextId, false, true, false,
      ⟨d2.module, d2.type, encodeVal d2.data⟩⟩,
    ⟨⟨cx.nextId, true⟩, cy.nextId == cx.nextId, false, true,
      ⟨d2.module, d2.type, d2.data⟩⟩,
    exchange_spec repo t1 t2 cx cy d1 d2 hx hy hqx hqy
      hrepo1 hconf1 hmod1 hrepo2 hconf2 hmod2,
    rfl, ?_⟩
  intro a b
  constructor
  · rintro rfl
    exact ⟨rfl, rfl⟩
  · rintro ⟨h1, h2⟩
    cases a
    cases b
    simp_all

/-- Witness for C8 at the test's repository and payloads. -/
theorem c8_conversation_equality_witness :
    ∃ (cvx : Conversation) (msg1 : Msg) (m1 : ReceivedMessage)
      (msg2 : Msg) (m2 : ReceivedMessage),
      exchange testRepo initConn initConn testData testData =
        some (cvx, msg1, m1, msg2, m2) ∧
      m2.conv = cvx ∧
      (∀ a b : Conversation,
        a = b ↔ a.firstId = b.firstId ∧ a.owner = b.owner) :=
  c8_conversation_equality testRepo .integer .integer initConn initConn
    testData testData rfl rfl rfl rfl
    (by decide) (by decide) (by decide) (by decide) (by decide) (by decide)
